import Mathlib

/-!
Verification of the Logo interpreter (logo.py, logo_parser.py, buffer.py,
logo_primitives.py) against its natural-language specification.

The Python source is shallowly embedded: token trees and runtime values
become the inductive type Value (a word is a Python str, a sentence a
Python list), the OUTPUT 2-tuple sentinel becomes RValue.outputSig, the
Buffer cursor becomes explicit list passing (remaining elements plus the
previous element where the source consults it), environment mutation
becomes state passing, Python exceptions become the Err sum, and the
recursive evaluator is driven by an explicit fuel parameter (the source
recursion has no termination guarantee; every theorem uses enough fuel).
-/

/-- Model of a Logo token or runtime value: a word (Python str) or a
sentence (Python list), as produced by parse_line and consumed by the
evaluator. -/
inductive Value where
  | word : String → Value
  | sentence : List Value → Value

mutual

/-- Decidable equality on values (Python == on str-or-list trees). -/
def Value.decEq : (a b : Value) → Decidable (a = b)
  | .word x, .word y =>
    match String.decEq x y with
    | isTrue h => isTrue (by rw [h])
    | isFalse h => isFalse (by intro hh; injection hh; contradiction)
  | .word _, .sentence _ => isFalse (by intro h; exact Value.noConfusion h)
  | .sentence _, .word _ => isFalse (by intro h; exact Value.noConfusion h)
  | .sentence xs, .sentence ys =>
    match Value.decEqList xs ys with
    | isTrue h => isTrue (by rw [h])
    | isFalse h => isFalse (by intro hh; injection hh; contradiction)

/-- Decidable equality on lists of values. -/
def Value.decEqList : (a b : List Value) → Decidable (a = b)
  | [], [] => isTrue rfl
  | [], _ :: _ => isFalse (by intro h; exact List.noConfusion h)
  | _ :: _, [] => isFalse (by intro h; exact List.noConfusion h)
  | x :: xs, y :: ys =>
    match Value.decEq x y, Value.decEqList xs ys with
    | isTrue h1, isTrue h2 => isTrue (by rw [h1, h2])
    | isFalse h1, _ => isFalse (by intro hh; injection hh; contradiction)
    | _, isFalse h2 => isFalse (by intro hh; injection hh; contradiction)

end

instance : DecidableEq Value := Value.decEq

deriving instance DecidableEq for Except

/-- Model of Python exceptions raised by the interpreter: LogoError
(logo.error), SyntaxError (the parser), ValueError (variable_name),
IndexError (out-of-range indexing), TypeError, EOFError (exhausted
continuation supplier), plus an artificial out-of-fuel marker for the
embedding's fuel counter (it corresponds to no Python behaviour and every
theorem supplies enough fuel to avoid it). -/
inductive Err where
  | logoError : String → Err
  | syntaxError : String → Err
  | valueError : String → Err
  | indexError : String → Err
  | typeError : String → Err
  | attributeError : String → Err
  | zeroDivisionError : String → Err
  | eofError : Err
  | outOfFuel : Err
deriving DecidableEq

/-! ## Tokenizer (logo_parser.py) -/

/-- LOGO_OPERATORS from logo_parser.py: set('+-*/=<>()'). -/
def LOGO_OPERATORS : List Char := ['+', '-', '*', '/', '=', '<', '>', '(', ')']

/-- LOGO_DELIMITERS from logo_parser.py: set('[]\n ') union LOGO_OPERATORS. -/
def LOGO_DELIMITERS : List Char := ['[', ']', '\n', ' '] ++ LOGO_OPERATORS

/-- Character accumulation loop of parse_symbol: keep popping while the
current character exists and is not a delimiter.  Returns the accumulated
characters and the remaining buffer. -/
def takeSymbolChars : List Char → List Char × List Char
  | [] => ([], [])
  | c :: rest =>
    if c ∈ LOGO_DELIMITERS then ([], c :: rest)
    else
      let p := takeSymbolChars rest
      (c :: p.1, p.2)

/-- parse_symbol from logo_parser.py: pop the first character c, then
accumulate non-delimiter characters.  Returns the symbol, the remaining
characters, and the new Buffer.previous (the last character popped). -/
def parse_symbol (c : Char) (rest : List Char) : String × List Char × Option Char :=
  let p := takeSymbolChars rest
  (String.mk (c :: p.1), p.2, some ((c :: p.1).getLast (List.cons_ne_nil c p.1)))

/-- parse_token from logo_parser.py: an operator character at the cursor
is returned as a one-character token, except that a minus whose previous
character is a space or does not exist starts a symbol; any other
character starts a symbol.  The cursor current character c, the rest of
the buffer, and Buffer.previous are passed explicitly. -/
def parse_token (c : Char) (rest : List Char) (prev : Option Char) : String × List Char × Option Char :=
  if c ∈ LOGO_OPERATORS then
    if c ≠ '-' ∨ (prev ≠ some ' ' ∧ prev ≠ none) then (String.mk [c], rest, some c)
    else parse_symbol c rest
  else parse_symbol c rest

/-- Recursive worker of parse_line from logo_parser.py, one fuel unit per
loop iteration: skip spaces, open a sentence on a left bracket (recursing
at depth + 1), close one on a right bracket (a syntax error at depth 0),
error at end of input when depth is not 0, and otherwise read one token
via parse_token.  Returns the token list, the unconsumed characters and
the final Buffer.previous. -/
def parseLineAux : Nat → List Char → Option Char → Nat → Except Err (List Value × List Char × Option Char)
  | 0, _, _, _ => .error .outOfFuel
  | fuel + 1, chars, prev, depth =>
    match chars with
    | [] =>
      if depth ≠ 0 then .error (.syntaxError ("Unmatched \"[\" at end of input"))
      else .ok ([], [], prev)
    | c :: rest =>
      if c = ' ' then parseLineAux fuel rest (some ' ') depth
      else if c = '[' then
        match parseLineAux fuel rest (some '[') (depth + 1) with
        | .error e => .error e
        | .ok (inner, rest1, prev1) =>
          match parseLineAux fuel rest1 prev1 depth with
          | .error e => .error e
          | .ok (toks, rest2, prev2) => .ok (.sentence inner :: toks, rest2, prev2)
      else if c = ']' then
        if depth = 0 then .error (.syntaxError ("Unexpected \"]\""))
        else .ok ([], rest, some ']')
      else
        let t := parse_token c rest prev
        match parseLineAux fuel t.2.1 t.2.2 depth with
        | .error e => .error e
        | .ok (toks, rest2, prev2) => .ok (.word t.1 :: toks, rest2, prev2)

/-- Python str.strip: drop whitespace from both ends of the character
list. -/
def pyStrip (l : List Char) : List Char :=
  ((l.dropWhile Char.isWhitespace).reverse.dropWhile Char.isWhitespace).reverse

/-- parse_line from logo_parser.py: strip the line and parse it from
depth 0 with a fresh character Buffer (previous is None).  The fuel
2 * length + 1 is always sufficient (each loop step either consumes a
character or returns). -/
def parse_line (s : String) : Except Err (List Value) :=
  let chars := pyStrip s.data
  match parseLineAux (2 * chars.length + 1) chars none 0 with
  | .error e => .error e
  | .ok (toks, _, _) => .ok toks

/-- Reference bracket-balance scanner: walks the characters with a depth
counter; a right bracket at counter 0 or a nonzero counter at end of
input means the brackets are unbalanced. -/
def balAux : List Char → Nat → Bool
  | [], d => d = 0
  | c :: cs, d =>
    if c = '[' then balAux cs (d + 1)
    else if c = ']' then
      if d = 0 then false else balAux cs (d - 1)
    else balAux cs d

/-- Reference scanner returning the characters strictly after the first
right bracket that is unmatched at relative nesting k, or none when every
right bracket is matched. -/
def firstUnmatched : List Char → Nat → Option (List Char)
  | [], _ => none
  | c :: cs, k =>
    if c = '[' then firstUnmatched cs (k + 1)
    else if c = ']' then
      if k = 0 then some cs else firstUnmatched cs (k - 1)
    else firstUnmatched cs k

mutual

/-- A token tree all of whose words are non-empty strings. -/
def nonemptyWords : Value → Bool
  | .word s => !s.data.isEmpty
  | .sentence l => nonemptyWordsList l

/-- List form of nonemptyWords. -/
def nonemptyWordsList : List Value → Bool
  | [] => true
  | v :: vs => nonemptyWords v && nonemptyWordsList vs

end

/-! ## Runtime results, Python rendering -/

/-- Result of evaluating an expression or line: either a plain value, or
the magic 2-tuple sentinel produced by the output and stop primitives
(a Python tuple whose first slot is the string OUTPUT and whose second
slot is the payload, possibly None). -/
inductive RValue where
  | val : Value → RValue
  | outputSig : Option RValue → RValue

mutual

/-- Decidable equality on runtime values. -/
def RValue.decEq : (a b : RValue) → Decidable (a = b)
  | .val x, .val y =>
    match Value.decEq x y with
    | isTrue h => isTrue (by rw [h])
    | isFalse h => isFalse (by intro hh; injection hh; contradiction)
  | .val _, .outputSig _ => isFalse (by intro h; exact RValue.noConfusion h)
  | .outputSig _, .val _ => isFalse (by intro h; exact RValue.noConfusion h)
  | .outputSig x, .outputSig y =>
    match RValue.decEqOpt x y with
    | isTrue h => isTrue (by rw [h])
    | isFalse h => isFalse (by intro hh; injection hh; contradiction)

/-- Decidable equality on optional runtime values (None included). -/
def RValue.decEqOpt : (a b : Option RValue) → Decidable (a = b)
  | none, none => isTrue rfl
  | none, some _ => isFalse (by intro h; exact Option.noConfusion h)
  | some _, none => isFalse (by intro h; exact Option.noConfusion h)
  | some x, some y =>
    match RValue.decEq x y with
    | isTrue h => isTrue (by rw [h])
    | isFalse h => isFalse (by intro hh; injection hh; contradiction)

end

instance : DecidableEq RValue := RValue.decEq

mutual

/-- Python repr of a value: words render with surrounding quotes,
sentences like Python lists. -/
def pyReprV : Value → String
  | .word s => "\x27" ++ s ++ "\x27"
  | .sentence l => "[" ++ pyReprList l ++ "]"

/-- Comma-separated Python repr of list elements. -/
def pyReprList : List Value → String
  | [] => ""
  | [v] => pyReprV v
  | v :: rest => pyReprV v ++ ", " ++ pyReprList rest

end

/-- Python repr of an optional runtime value (None, value, or the
OUTPUT tuple). -/
def pyRepr : Option RValue → String
  | none => "None"
  | some (.val v) => pyReprV v
  | some (.outputSig x) => "(\x27OUTPUT\x27, " ++ pyRepr x ++ ")"

/-- Python str of an optional runtime value, as used by format in error
messages: a word prints bare, everything else through repr. -/
def pyStr : Option RValue → String
  | some (.val (.word s)) => s
  | x => pyRepr x

/-! ## Environment (logo.py Environment class)

A frame is a Python dict from variable name to (possibly None) value,
modelled as an association list with dict update semantics.  The frame
list keeps the Python order: index 0 is the global frame, the last
element the innermost frame. -/

/-- One environment frame. -/
abbrev Frame := List (String × Option RValue)

/-- Python: symbol in frame.keys(). -/
def frameContains (f : Frame) (k : String) : Bool := (f.lookup k).isSome

/-- Python dict assignment frame[k] = v: overwrite in place when the key
exists, append otherwise. -/
def frameSet (f : Frame) (k : String) (v : Option RValue) : Frame :=
  if frameContains f k then f.map (fun p => if p.1 = k then (k, v) else p)
  else f ++ [(k, v)]

/-- Primitive procedures embedded from logo.py / logo_primitives.py.
Printing, list, boolean and turtle primitives are not modelled: no
verified claim mentions them and they would only add table entries. -/
inductive Prim where
  | psum | pdifference | pproduct | pdiv | pequalp | plessp | pgreaterp
  | pmake | pif | pifelse | poutput | pstop | prun
deriving DecidableEq

/-- A procedure body: a host function (primitive) or a list of parsed
lines (user-defined). -/
inductive ProcBody where
  | prim : Prim → ProcBody
  | user : List (List Value) → ProcBody
deriving DecidableEq

/-- Procedure record from logo.py (class Procedure). -/
structure Procedure where
  name : String
  arg_count : Nat
  body : ProcBody
  isprimitive : Bool
  needs_env : Bool
  formal_params : List String
deriving DecidableEq

/-- Environment from logo.py: the procedure table, the frame stack
(frames[0] global, last innermost) and the continuation-line supplier,
modelled as the already-parsed lines it will yield (the source composes
get_continuation_line with parse_line). -/
structure Env where
  procedures : List (String × Procedure)
  frames : List Frame
  continuation : List (List Value)
deriving DecidableEq

/-- Environment.push_frame: append a new innermost frame. -/
def Env.push_frame (env : Env) (f : Frame) : Env :=
  ⟨env.procedures, env.frames ++ [f], env.continuation⟩

/-- Environment.pop_frame: discard the innermost frame (Python
list.pop(); only reached when a frame was pushed, so the stack is
non-empty there). -/
def Env.pop_frame (env : Env) : Env :=
  ⟨env.procedures, env.frames.dropLast, env.continuation⟩

/-- Search a frame list front to back for a binding (the caller passes
the reversed stack, innermost first, to mirror the reversed range loop
in lookup_variable). -/
def lookupFrames : List Frame → String → Option (Option RValue)
  | [], _ => none
  | f :: rest, k =>
    match f.lookup k with
    | some v => some v
    | none => lookupFrames rest k

/-- Environment.lookup_variable: innermost binding wins; an unbound name
raises LogoError "name has no value". -/
def lookup_variable (env : Env) (symbol : String) : Except Err (Option RValue) :=
  match lookupFrames env.frames.reverse symbol with
  | some v => .ok v
  | none => .error (.logoError (symbol ++ " has no value"))

/-- Environment.set_variable_value: write to the innermost frame when it
already binds the name, otherwise write to the global frame.  The empty
frame-stack cases are unreachable (the stack always holds the global
frame; Python would raise IndexError). -/
def set_variable_value (env : Env) (symbol : String) (val : Option RValue) : Env :=
  match env.frames.getLast? with
  | none => env
  | some last =>
    if frameContains last symbol then
      ⟨env.procedures, env.frames.dropLast ++ [frameSet last symbol val], env.continuation⟩
    else
      match env.frames with
      | [] => env
      | g :: rest => ⟨env.procedures, frameSet g symbol val :: rest, env.continuation⟩

/-! ## The type primitive (logo_type in logo.py)

The printing routine is modelled as a function returning the exact text
the source writes to stdout.  The source tests "x[-1] == i" (a value
comparison against the last element) to decide whether to append a space
after an element. -/

mutual

/-- logo_type from logo.py: returns the text printed for value x; for a
sentence the flag top_level decides whether enclosing brackets are
written.  The accumulator pair of logoTypeItems models (text already
flushed by print calls, pending print_str). -/
def logo_type (x : Value) (top_level : Bool) : String :=
  match x with
  | .word s => s
  | .sentence l =>
    let ps0 := if !top_level then "[" else ""
    let r := logoTypeItems l l ("", ps0)
    let ps2 := if !top_level then (if r.2 = " " then "]" else r.2 ++ "]") else r.2
    if ps2 ≠ " " then r.1 ++ ps2 else r.1

/-- Body of the for loop in logo_type: all is the whole sentence (for
the x[-1] test), the second argument the elements still to print. -/
def logoTypeItems (all : List Value) : List Value → String × String → String × String
  | [], acc => acc
  | i :: rest, acc =>
    match i with
    | .sentence m =>
      logoTypeItems all rest (acc.1 ++ acc.2 ++ logo_type (.sentence m) false, " ")
    | .word s =>
      if all.getLast? = some (Value.word s) then
        logoTypeItems all rest (acc.1, acc.2 ++ s)
      else
        logoTypeItems all rest (acc.1, acc.2 ++ s ++ " ")

end

/-! ## Numbers (logo_primitives.py coercions)

Python ints are exact; Python floats are modelled as rationals.  Binary
floating-point rounding and the shortest-repr printing of floats are not
modelled: no verified claim depends on them (the claims below involve
integers and finite decimals, on which this model and CPython agree). -/

/-- A Python number: int or float (as an exact rational). -/
inductive PyNum where
  | int : Int → PyNum
  | flt : ℚ → PyNum
deriving DecidableEq

/-- Numeric value of a Python number. -/
def PyNum.toQ : PyNum → ℚ
  | .int n => (n : ℚ)
  | .flt q => q

/-- Python +: int stays int, float is contagious. -/
def pyAdd : PyNum → PyNum → PyNum
  | .int a, .int b => .int (a + b)
  | a, b => .flt (a.toQ + b.toQ)

/-- Python binary minus with int/float promotion. -/
def pySub : PyNum → PyNum → PyNum
  | .int a, .int b => .int (a - b)
  | a, b => .flt (a.toQ - b.toQ)

/-- Python * with int/float promotion. -/
def pyMul : PyNum → PyNum → PyNum
  | .int a, .int b => .int (a * b)
  | a, b => .flt (a.toQ * b.toQ)

/-- Python < on numbers. -/
def pyLt (a b : PyNum) : Bool := a.toQ < b.toQ

/-- Python > on numbers. -/
def pyGt (a b : PyNum) : Bool := b.toQ < a.toQ

/-- Value of a digit list. -/
def digitsToNat (l : List Char) : Nat := l.foldl (fun a c => a * 10 + (c.toNat - 48)) 0

/-- Non-empty all-digit character list. -/
def isDigits (l : List Char) : Bool := !l.isEmpty && l.all Char.isDigit

/-- Python int(str): optional surrounding whitespace, optional sign,
digits (digit-group underscores are not modelled). -/
def pyIntParse (s : String) : Option Int :=
  let l := pyStrip s.data
  match l with
  | '-' :: rest => if isDigits rest then some (-(digitsToNat rest : Int)) else none
  | '+' :: rest => if isDigits rest then some ((digitsToNat rest : Int)) else none
  | _ => if isDigits l then some ((digitsToNat l : Int)) else none

/-- Mantissa of a Python float literal: digits, digits.digits, digits.,
or .digits (at least one digit overall). -/
def mantissaParse (l : List Char) : Option ℚ :=
  let ip := l.takeWhile Char.isDigit
  let rest := l.dropWhile Char.isDigit
  match rest with
  | [] => if ip.isEmpty then none else some ((digitsToNat ip : ℚ))
  | '.' :: frac =>
    if frac.all Char.isDigit && (!ip.isEmpty || !frac.isEmpty) then
      some ((digitsToNat ip : ℚ) + (digitsToNat frac : ℚ) / (10 : ℚ) ^ frac.length)
    else none
  | _ => none

/-- Apply a base-10 integer exponent to a rational. -/
def applyExp10 (q : ℚ) (e : Int) : ℚ :=
  if 0 ≤ e then q * (10 : ℚ) ^ e.toNat else q / (10 : ℚ) ^ (-e).toNat

/-- Python float(str) for finite decimal literals: optional whitespace,
sign, mantissa, optional e-exponent.  The inf/infinity/nan forms are
recognised by pyFloatOk but have no rational value. -/
def pyFloatParse (s : String) : Option ℚ :=
  let l0 := pyStrip s.data
  let sl : ℚ × List Char :=
    match l0 with
    | '-' :: r => (-1, r)
    | '+' :: r => (1, r)
    | r => (1, r)
  let mant := sl.2.takeWhile (fun c => c ≠ 'e' ∧ c ≠ 'E')
  let rest := sl.2.dropWhile (fun c => c ≠ 'e' ∧ c ≠ 'E')
  match rest with
  | [] => (mantissaParse mant).map (fun q => sl.1 * q)
  | _ :: expPart =>
    let se : Int × List Char :=
      match expPart with
      | '-' :: r => (-1, r)
      | '+' :: r => (1, r)
      | r => (1, r)
    if isDigits se.2 then
      (mantissaParse mant).map (fun q => applyExp10 (sl.1 * q) (se.1 * (digitsToNat se.2 : Int)))
    else none

/-- Python inf/infinity/nan float forms (case-insensitive, after the
sign). -/
def infNanChars (l : List Char) : Bool :=
  (l.map Char.toLower) = ['i', 'n', 'f'] ||
  (l.map Char.toLower) = ['i', 'n', 'f', 'i', 'n', 'i', 't', 'y'] ||
  (l.map Char.toLower) = ['n', 'a', 'n']

/-- Whether Python float(s) succeeds. -/
def pyFloatOk (s : String) : Bool :=
  let l0 := pyStrip s.data
  let l1 :=
    match l0 with
    | '-' :: r => r
    | '+' :: r => r
    | r => r
  infNanChars l1 || (pyFloatParse s).isSome

/-- Multiplicity of a prime factor p in n (fuel-driven division loop). -/
def countFactor (p : Nat) : Nat → Nat → Nat
  | 0, _ => 0
  | fuel + 1, n => if 2 ≤ p ∧ 1 ≤ n ∧ n % p = 0 then countFactor p fuel (n / p) + 1 else 0

/-- Left-pad a digit string with zeros to width k. -/
def padLeftZeros (s : String) (k : Nat) : String :=
  String.mk (List.replicate (k - s.length) '0') ++ s

/-- Python str() of a number.  For an int, the plain digits; for a float
whose value is a finite decimal, the decimal digits (str(4.0) is 4.0,
str(0.05) is 0.05); other rationals (which CPython would have rounded to
a binary float much earlier) fall back to a fraction rendering on which
no claim depends. -/
def numToStr : PyNum → String
  | .int n => toString n
  | .flt q =>
    let d := q.den
    let a := countFactor 2 d d
    let b := countFactor 5 d d
    let k := max a b
    if d = 2 ^ a * 5 ^ b then
      if k = 0 then toString q.num ++ ".0"
      else
        let sign := if q.num < 0 then "-" else ""
        let scaled := q.num.natAbs * 10 ^ k / d
        sign ++ toString (scaled / 10 ^ k) ++ "." ++ padLeftZeros (toString (scaled % 10 ^ k)) k
    else toString q.num ++ "/" ++ toString d

/-- to_num from logo_primitives.py: int parse first, then float parse,
else the LogoError raised via logo.error (an inf/nan float, which the
rational model cannot hold, also lands in the error case). -/
def to_num (x : Option RValue) : Except Err PyNum :=
  match x with
  | some (.val (.word s)) =>
    match pyIntParse s with
    | some n => .ok (.int n)
    | none =>
      match pyFloatParse s with
      | some q => .ok (.flt q)
      | none => .error (.logoError (s ++ " is not a number"))
  | x => .error (.logoError (pyStr x ++ " is not a number"))

/-- numeric(f) wrapper from logo_primitives.py for a 2-argument number
function: coerce both arguments, apply, stringify. -/
def numeric2 (f : PyNum → PyNum → PyNum) (x y : Option RValue) : Except Err (Option RValue) :=
  match to_num x with
  | .error e => .error e
  | .ok a =>
    match to_num y with
    | .error e => .error e
    | .ok b => .ok (some (.val (.word (numToStr (f a b)))))

/-- numeric(op.truediv): Python / always yields a float; division by
zero raises ZeroDivisionError. -/
def numericDiv (x y : Option RValue) : Except Err (Option RValue) :=
  match to_num x with
  | .error e => .error e
  | .ok a =>
    match to_num y with
    | .error e => .error e
    | .ok b =>
      if b.toQ = 0 then .error (.zeroDivisionError ("division by zero"))
      else .ok (some (.val (.word (numToStr (.flt (a.toQ / b.toQ))))))

/-- numeric(op.lt) and friends: coerce, compare, stringify the bool. -/
def numericCmp (f : PyNum → PyNum → Bool) (x y : Option RValue) : Except Err (Option RValue) :=
  match to_num x with
  | .error e => .error e
  | .ok a =>
    match to_num y with
    | .error e => .error e
    | .ok b => .ok (some (.val (.word (if f a b then "True" else "False"))))

/-- Python float(x) as used by equal: only words can coerce. -/
def floatOf (x : Option RValue) : Option ℚ :=
  match x with
  | some (.val (.word s)) => pyFloatParse s
  | _ => none

/-- equal from logo_primitives.py: == first, then float comparison,
else the word False. -/
def equal (x y : Option RValue) : Option RValue :=
  if x = y then some (.val (.word "True"))
  else
    match floatOf x, floatOf y with
    | some a, some b => some (.val (.word (if a = b then "True" else "False")))
    | _, _ => some (.val (.word "False"))

/-! ## Evaluator predicates (logo.py) -/

/-- Python str.startswith for a single-character prefix on the raw
character list (String.startsWith does not reduce in the kernel). -/
def startsWithChar (s : String) (c : Char) : Bool :=
  match s.data with
  | [] => false
  | d :: _ => d = c

/-- Python exp[1:]. -/
def strDrop1 (s : String) : String := String.mk (s.data.drop 1)

/-- isprimitive from logo.py: True, False, and anything float() accepts
are self-evaluating; a sentence never is (float(list) raises TypeError,
which isprimitive catches). -/
def isprimitive : Value → Bool
  | .word s => s = "True" || s = "False" || pyFloatOk s
  | .sentence _ => false

/-- isvariable from logo.py: a word starting with a colon. -/
def isvariable : Value → Bool
  | .word s => startsWithChar s ':'
  | .sentence _ => false

/-- variable_name from logo.py: strip the colon; a non-word, a bare
colon, or a word not starting with a colon raises ValueError. -/
def variable_name : Value → Except Err String
  | .word s =>
    if s.length ≤ 1 || !(startsWithChar s ':') then
      .error (.valueError ("Illegal variable expression " ++ s))
    else .ok (strDrop1 s)
  | .sentence l => .error (.valueError ("Illegal variable expression " ++ pyReprV (.sentence l)))

/-- isdefinition from logo.py. -/
def isdefinition (v : Value) : Bool := v = .word "to"

/-- isquoted from logo.py: sentences and double-quoted words. -/
def isquoted : Value → Bool
  | .sentence _ => true
  | .word s => startsWithChar s '"'

/-- text_of_quotation from logo.py: a word loses its first character, a
sentence is returned unchanged. -/
def text_of_quotation : Value → Value
  | .word s => .word (strDrop1 s)
  | .sentence l => .sentence l

/-- Python result[0] == 'OUTPUT' on a line result: true for the OUTPUT
tuple and for a sentence whose first element is the word OUTPUT; a
one-character string slice never equals OUTPUT; indexing an empty word
or sentence raises IndexError. -/
def getitem0 : RValue → Except Err Bool
  | .outputSig _ => .ok true
  | .val (.word s) =>
    match s.data with
    | [] => .error (.indexError ("string index out of range"))
    | _ :: _ => .ok false
  | .val (.sentence l) =>
    match l with
    | [] => .error (.indexError ("list index out of range"))
    | x :: _ => .ok (x = Value.word "OUTPUT")

/-- Python result[1]: the tuple payload, the second sentence element, or
the second character of a word. -/
def getitem1 : RValue → Except Err (Option RValue)
  | .outputSig x => .ok x
  | .val (.word s) =>
    match s.data with
    | _ :: c :: _ => .ok (some (.val (.word (String.mk [c]))))
    | _ => .error (.indexError ("string index out of range"))
  | .val (.sentence l) =>
    match l with
    | _ :: x :: _ => .ok (some (.val x))
    | _ => .error (.indexError ("list index out of range"))

/-- Message text of a Python exception, used when logo_apply converts a
primitive failure into a LogoError. -/
def errStr : Err → String
  | .logoError m => m
  | .syntaxError m => m
  | .valueError m => m
  | .indexError m => m
  | .typeError m => m
  | .attributeError m => m
  | .zeroDivisionError m => m
  | .eofError => ""
  | .outOfFuel => "out of fuel"

/-- INFIX_SYMBOLS from logo.py. -/
def INFIX_SYMBOLS : List (String × String) :=
  [("+", "sum"), ("-", "difference"), ("*", "product"), ("/", "div"),
   ("=", "equalp"), (">", "greaterp"), ("<", "lessp")]

/-- dict(zip(params, args)) with dict overwrite semantics on duplicate
parameter names. -/
def zipToFrame (ps : List String) (vs : List (Option RValue)) : Frame :=
  (List.zip ps vs).foldl (fun f pv => frameSet f pv.1 pv.2) []

/-- Python dict assignment on the procedure table. -/
def procSet (t : List (String × Procedure)) (k : String) (v : Procedure) :
    List (String × Procedure) :=
  if (t.lookup k).isSome then t.map (fun p => if p.1 = k then (k, v) else p)
  else t ++ [(k, v)]

/-- Line-reading loop of eval_definition: collect parsed continuation
lines until the single-token line end; an exhausted supplier raises
EOFError. -/
def read_body : List (List Value) → List (List Value) →
    Except Err (List (List Value) × List (List Value))
  | _, [] => .error .eofError
  | acc, l :: rest =>
    if l = [Value.word "end"] then .ok (acc, rest)
    else read_body (acc ++ [l]) rest

/-- eval_definition from logo.py: pop the name, quote-strip the formal
parameters, read body lines until end, register the procedure.  The
model requires word parameters and a word name (with a sentence, Python
would raise an unhashable-type TypeError when the corresponding dict is
built). -/
def eval_definition (line : List Value) (env : Env) :
    Except Err ((Option RValue) × List Value) × Env :=
  match line with
  | [] => (.error (.indexError ("Nothing left to pop")), env)
  | nameTok :: rest =>
    match nameTok with
    | .sentence _ => (.error (.typeError ("unhashable type: \x27list\x27")), env)
    | .word procedure_name =>
      let argVals := rest.map text_of_quotation
      if argVals.any (fun v => match v with | .sentence _ => true | .word _ => false) then
        (.error (.typeError ("unhashable type: \x27list\x27")), env)
      else
        let args := argVals.map (fun v => match v with | .word s => s | .sentence _ => "")
        match read_body [] env.continuation with
        | .error e => (.error e, env)
        | .ok (body, cont2) =>
          (.ok (none, []),
            ⟨procSet env.procedures procedure_name
              ⟨procedure_name, args.length, .user body, false, true, args⟩,
              env.frames, cont2⟩)

/-- logo_make from logo.py: bind the name, return None.  Variable names
are modelled as strings (Python would accept any hashable key). -/
def logo_make (sym v : Option RValue) (env : Env) : Except Err (Option RValue) × Env :=
  match sym with
  | some (.val (.word s)) => (.ok none, set_variable_value env s v)
  | some (.val (.sentence _)) => (.error (.typeError ("unhashable type: \x27list\x27")), env)
  | _ => (.error (.typeError ("variable name not representable in the model")), env)

/-! ## The evaluator (logo.py)

One fuel unit is consumed at every call; every theorem below supplies
enough fuel, so the outOfFuel branches are never observed there. -/

mutual

/-- eval_line from logo.py: evaluate expressions until the buffer is
exhausted or a non-None result appears. -/
def eval_line : Nat → List Value → Env → Except Err (Option RValue) × Env
  | 0, _, env => (.error .outOfFuel, env)
  | fuel + 1, line, env =>
    match line with
    | [] => (.ok none, env)
    | _ :: _ =>
      match logo_eval fuel false line env with
      | (.error e, env1) => (.error e, env1)
      | (.ok (r, rest), env1) =>
        match r with
        | none => eval_line fuel rest env1
        | some v => (.ok (some v), env1)

/-- logo_eval from logo.py: the out-of-input and unexpected-) checks,
then the non-infix expression, then the infix-operator loop. -/
def logo_eval : Nat → Bool → List Value → Env → Except Err ((Option RValue) × List Value) × Env
  | 0, _, _, env => (.error .outOfFuel, env)
  | fuel + 1, pre_operator, line, env =>
    match line with
    | [] => (.error (.logoError ("Ran out of input")), env)
    | t :: _ =>
      if t = Value.word ")" then (.error (.logoError ("Unexpected \")\"")), env)
      else
        match eval_noninfix_exp fuel line env with
        | (.error e, env1) => (.error e, env1)
        | (.ok (r, rest), env1) => infix_ops fuel pre_operator r rest env1

/-- While loop at the end of logo_eval: group 2 operators take a
non-infix right operand; groups 0 and 1 return early when pre_operator
is set, and otherwise take a full-expression right operand evaluated
with pre_operator false (group 0) or true (group 1). -/
def infix_ops : Nat → Bool → Option RValue → List Value → Env →
    Except Err ((Option RValue) × List Value) × Env
  | 0, _, _, _, env => (.error .outOfFuel, env)
  | fuel + 1, pre_operator, result, line, env =>
    match line with
    | Value.word op :: rest =>
      match INFIX_SYMBOLS.lookup op with
      | none => (.ok (result, line), env)
      | some procName =>
        let proc? := env.procedures.lookup procName
        if op ∈ ["*", "/"] then
          match eval_noninfix_exp fuel rest env with
          | (.error e, env1) => (.error e, env1)
          | (.ok (rhs, rest1), env1) =>
            match proc? with
            | none => (.error (.attributeError
                ("\x27NoneType\x27 object has no attribute \x27isprimitive\x27")), env1)
            | some proc =>
              match logo_apply fuel proc [result, rhs] env1 with
              | (.error e, env2) => (.error e, env2)
              | (.ok r2, env2) => infix_ops fuel pre_operator r2 rest1 env2
        else
          if pre_operator then (.ok (result, line), env)
          else
            match logo_eval fuel (if op ∈ ["<", ">", "="] then false else true) rest env with
            | (.error e, env1) => (.error e, env1)
            | (.ok (rhs, rest1), env1) =>
              match proc? with
              | none => (.error (.attributeError
                  ("\x27NoneType\x27 object has no attribute \x27isprimitive\x27")), env1)
              | some proc =>
                match logo_apply fuel proc [result, rhs] env1 with
                | (.error e, env2) => (.error e, env2)
                | (.ok r2, env2) => infix_ops fuel pre_operator r2 rest1 env2
    | _ => (.ok (result, line), env)

/-- eval_noninfix_exp (local function of logo_eval): dispatch on the popped
token. -/
def eval_noninfix_exp : Nat → List Value → Env → Except Err ((Option RValue) × List Value) × Env
  | 0, _, env => (.error .outOfFuel, env)
  | fuel + 1, line, env =>
    match line with
    | [] => (.error (.indexError ("Nothing left to pop")), env)
    | token :: rest =>
      if isprimitive token then (.ok (some (.val token), rest), env)
      else if isvariable token then
        match variable_name token with
        | .error e => (.error e, env)
        | .ok name =>
          match lookup_variable env name with
          | .error e => (.error e, env)
          | .ok v => (.ok (v, rest), env)
      else if isdefinition token then eval_definition rest env
      else if isquoted token then (.ok (some (.val (text_of_quotation token)), rest), env)
      else if token = Value.word "(" then
        match logo_eval fuel false rest env with
        | (.error e, env1) => (.error e, env1)
        | (.ok (r, rest1), env1) =>
          match rest1 with
          | Value.word ")" :: rest2 => (.ok (r, rest2), env1)
          | _ => (.error (.logoError ("Expected \")\"")), env1)
      else
        match token with
        | .sentence l => (.ok (some (.val (.sentence l)), rest), env)
        | .word name =>
          match env.procedures.lookup name with
          | none => (.error (.logoError ("I do not know how to " ++ name ++ ".")), env)
          | some proc => apply_procedure fuel proc rest env

/-- apply_procedure from logo.py: collect arg_count arguments, then
apply (needs_env procedures receive the environment, threaded explicitly
here). -/
def apply_procedure : Nat → Procedure → List Value → Env →
    Except Err ((Option RValue) × List Value) × Env
  | 0, _, _, env => (.error .outOfFuel, env)
  | fuel + 1, proc, line, env =>
    match collect_args fuel proc.arg_count [] line env with
    | (.error e, env1) => (.error e, env1)
    | (.ok (args, rest), env1) =>
      if args.length < proc.arg_count then
        (.error (.logoError ("Not enough args to " ++ proc.name)), env1)
      else
        match logo_apply fuel proc args env1 with
        | (.error e, env2) => (.error e, env2)
        | (.ok r, env2) => (.ok (r, rest), env2)

/-- collect_args from logo.py, with the accumulated arguments made
explicit: evaluate expressions while input remains and fewer than n
arguments exist; raise the found-only error when short. -/
def collect_args : Nat → Nat → List (Option RValue) → List Value → Env →
    Except Err (List (Option RValue) × List Value) × Env
  | 0, _, _, _, env => (.error .outOfFuel, env)
  | fuel + 1, n, acc, line, env =>
    if line ≠ [] ∧ acc.length < n then
      match logo_eval fuel false line env with
      | (.error e, env1) => (.error e, env1)
      | (.ok (r, rest), env1) => collect_args fuel n (acc ++ [r]) rest env1
    else
      if acc.length < n then
        (.error (.logoError ("Found only " ++ toString acc.length ++ " of " ++
          toString n ++ " args")), env)
      else (.ok (acc, line), env)

/-- logo_apply from logo.py.  A primitive body runs under the
try/except that converts any Python error into a LogoError.  A
user-defined body pushes a frame binding the formal parameters to the
arguments (Python zips against args[:-1], whose trailing element is the
environment exactly when needs_env is set; the environment is explicit
here) and runs the body lines. -/
def logo_apply : Nat → Procedure → List (Option RValue) → Env →
    Except Err (Option RValue) × Env
  | 0, _, _, env => (.error .outOfFuel, env)
  | fuel + 1, proc, args, env =>
    match proc.body with
    | .prim p =>
      match apply_primitive fuel p args env with
      | (.error e, env1) =>
        (.error (if e = .outOfFuel then e else .logoError (errStr e)), env1)
      | (.ok r, env1) => (.ok r, env1)
    | .user body =>
      let pythonArgsButLast := if proc.needs_env then args else args.dropLast
      apply_body fuel body (env.push_frame (zipToFrame proc.formal_params pythonArgsButLast))

/-- Body loop of logo_apply for a user-defined procedure.  On a line
whose result passes the result[0] == OUTPUT test the frame is popped and
result[1] returned; on any other non-None result the frame is popped and
the you-do-not-say error raised; when every line evaluates to None the
loop falls through returning None WITHOUT popping the frame (the source
has no pop on that path). -/
def apply_body : Nat → List (List Value) → Env → Except Err (Option RValue) × Env
  | 0, _, env => (.error .outOfFuel, env)
  | _ + 1, [], env => (.ok none, env)
  | fuel + 1, i :: rest, env =>
    match eval_line fuel i env with
    | (.error e, env1) => (.error e, env1)
    | (.ok none, env1) => apply_body fuel rest env1
    | (.ok (some result), env1) =>
      match getitem0 result with
      | .error e => (.error e, env1)
      | .ok true =>
        match getitem1 result with
        | .error e => (.error e, env1.pop_frame)
        | .ok payload => (.ok payload, env1.pop_frame)
      | .ok false =>
        (.error (.logoError ("You do not say what to do with " ++ pyStr (some result))),
          env1.pop_frame)

/-- Dispatch proc.body(*args) for the modelled primitives; a call with
the wrong argument count is the TypeError Python would raise. -/
def apply_primitive : Nat → Prim → List (Option RValue) → Env →
    Except Err (Option RValue) × Env
  | 0, _, _, env => (.error .outOfFuel, env)
  | fuel + 1, p, args, env =>
    match p, args with
    | .psum, [x, y] => (numeric2 pyAdd x y, env)
    | .pdifference, [x, y] => (numeric2 pySub x y, env)
    | .pproduct, [x, y] => (numeric2 pyMul x y, env)
    | .pdiv, [x, y] => (numericDiv x y, env)
    | .pequalp, [x, y] => (.ok (equal x y), env)
    | .plessp, [x, y] => (numericCmp pyLt x y, env)
    | .pgreaterp, [x, y] => (numericCmp pyGt x y, env)
    | .pmake, [sym, v] => logo_make sym v env
    | .pif, [v, e] => logo_if fuel v e env
    | .pifelse, [v, t, f] => logo_ifelse fuel v t f env
    | .poutput, [x] => (.ok (some (.outputSig x)), env)
    | .pstop, [] => (.ok (some (.outputSig none)), env)
    | .prun, [x] => logo_run fuel x env
    | _, _ => (.error (.typeError ("wrong number of arguments")), env)

/-- Condition evaluation shared by logo_if and logo_ifelse: a non-list
condition is wrapped in a one-element list, then the list is evaluated
as a line.  Buffer([None]) has current None so eval_line returns None;
a tuple condition makes the evaluator crash on startswith. -/
def if_cond_eval : Nat → Option RValue → Env → Except Err (Option RValue) × Env
  | 0, _, env => (.error .outOfFuel, env)
  | fuel + 1, val, env =>
    match val with
    | some (.val (.sentence l)) => eval_line fuel l env
    | some (.val (.word s)) => eval_line fuel [.word s] env
    | some (.outputSig _) =>
      (.error (.attributeError ("\x27tuple\x27 object has no attribute \x27startswith\x27")), env)
    | none => (.ok none, env)

/-- Branch evaluation eval_line(Buffer(exp), env) in logo_if and
logo_ifelse: the raw second argument is NOT list-wrapped, so a word
branch is iterated character by character (Buffer(str) lists the
characters), and a None branch is the not-iterable TypeError. -/
def run_exp : Nat → Option RValue → Env → Except Err (Option RValue) × Env
  | 0, _, env => (.error .outOfFuel, env)
  | fuel + 1, exp, env =>
    match exp with
    | some (.val (.sentence l)) => eval_line fuel l env
    | some (.val (.word s)) =>
      eval_line fuel (s.data.map (fun c => Value.word (String.mk [c]))) env
    | some (.outputSig x) =>
      match x with
      | some (.val v) => eval_line fuel [Value.word "OUTPUT", v] env
      | _ => (.error (.typeError ("token not representable in the model")), env)
    | none => (.error (.typeError ("\x27NoneType\x27 object is not iterable")), env)

/-- logo_if from logo.py: evaluate the condition; on the word True
evaluate the branch, on the word False return None, otherwise raise the
first-argument LogoError. -/
def logo_if : Nat → Option RValue → Option RValue → Env → Except Err (Option RValue) × Env
  | 0, _, _, env => (.error .outOfFuel, env)
  | fuel + 1, val, exp, env =>
    match if_cond_eval fuel val env with
    | (.error e, env1) => (.error e, env1)
    | (.ok result, env1) =>
      if result = some (.val (.word "True")) then run_exp fuel exp env1
      else if result = some (.val (.word "False")) then (.ok none, env1)
      else
        (.error (.logoError ("First argument to \x27if\x27 is not True or False: " ++
          pyStr result)), env1)

/-- logo_ifelse from logo.py. -/
def logo_ifelse : Nat → Option RValue → Option RValue → Option RValue → Env →
    Except Err (Option RValue) × Env
  | 0, _, _, _, env => (.error .outOfFuel, env)
  | fuel + 1, val, texp, fexp, env =>
    match if_cond_eval fuel val env with
    | (.error e, env1) => (.error e, env1)
    | (.ok result, env1) =>
      if result = some (.val (.word "True")) then run_exp fuel texp env1
      else if result = some (.val (.word "False")) then run_exp fuel fexp env1
      else
        (.error (.logoError ("First argument to \x27ifelse\x27 is not True or False: " ++
          pyStr result)), env1)

/-- logo_run from logo.py: wrap a non-list in a one-element list and
evaluate it as a line. -/
def logo_run : Nat → Option RValue → Env → Except Err (Option RValue) × Env
  | 0, _, env => (.error .outOfFuel, env)
  | fuel + 1, exp, env =>
    match exp with
    | some (.val (.sentence l)) => eval_line fuel l env
    | some (.val (.word s)) => eval_line fuel [.word s] env
    | some (.outputSig _) =>
      (.error (.attributeError ("\x27tuple\x27 object has no attribute \x27startswith\x27")), env)
    | none => (.ok none, env)

end

/-- Procedure record for a primitive (make_primitive in logo.py with the
default positional formal parameter names). -/
def primProc (nm : String) (n : Nat) (p : Prim) (ne : Bool) : Procedure :=
  ⟨nm, n, .prim p, true, ne, (List.range n).map toString⟩

/-- load_primitives from logo.py restricted to the modelled primitives,
aliases included. -/
def load_primitives : List (String × Procedure) :=
  [("sum", primProc "sum" 2 .psum false),
   ("difference", primProc "difference" 2 .pdifference false),
   ("product", primProc "product" 2 .pproduct false),
   ("div", primProc "div" 2 .pdiv false),
   ("quotient", primProc "div" 2 .pdiv false),
   ("equalp", primProc "equalp" 2 .pequalp false),
   ("eq", primProc "equalp" 2 .pequalp false),
   ("equal?", primProc "equalp" 2 .pequalp false),
   ("lessp", primProc "lessp" 2 .plessp false),
   ("lt", primProc "lessp" 2 .plessp false),
   ("less?", primProc "lessp" 2 .plessp false),
   ("greaterp", primProc "greaterp" 2 .pgreaterp false),
   ("gp", primProc "greaterp" 2 .pgreaterp false),
   ("greater?", primProc "greaterp" 2 .pgreaterp false),
   ("make", primProc "make" 2 .pmake true),
   ("if", primProc "if" 2 .pif true),
   ("ifelse", primProc "ifelse" 3 .pifelse true),
   ("output", primProc "output" 1 .poutput false),
   ("stop", primProc "stop" 0 .pstop false),
   ("run", primProc "run" 1 .prun true)]

/-- Environment construction from logo.py: the primitive table and a
single (global) empty frame; the continuation lines are the parsed lines
the supplier will yield. -/
def Environment (cont : List (List Value)) : Env := ⟨load_primitives, [[]], cont⟩

/-! ## Supporting concrete procedures and environments for the claims -/

/-- User-defined procedure whose single body line (make "x "1) evaluates
to None, as produced by: to f / make "x "1 / end. -/
def procF : Procedure :=
  ⟨"f", 0, .user [[Value.word "make", .word "\"x", .word "\"1"]], false, true, []⟩

/-- Environment with procF registered. -/
def envF : Env := ⟨procSet load_primitives "f" procF, [[]], []⟩

/-- User procedure g whose single body line is the quoted literal
sentence (OUTPUT v), as produced by: to g / [OUTPUT v] / end. -/
def procQuoted : Procedure :=
  ⟨"g", 0, .user [[Value.sentence [.word "OUTPUT", .word "v"]]], false, true, []⟩

/-- User procedure h whose single body line calls the output primitive
with the quoted word v. -/
def procOutput : Procedure :=
  ⟨"h", 0, .user [[Value.word "output", .word "\"v"]], false, true, []⟩

/-- Concrete two-frame environment: global binds x, innermost binds y. -/
def envW : Env :=
  ⟨[], [[("x", some (.val (.word "1")))], [("y", some (.val (.word "2")))]], []⟩

/-! ## Integration checks against the doctests of the source -/

example : logo_type (.sentence [.word "1", .word "2",
    .sentence [.word "3", .sentence [.word "4"], .word "5"]]) true = "1 2 [3 [4] 5]" := by decide
example : logo_type (.sentence [.word "a", .sentence [.word "b", .word "c"], .word "d"]) true
    = "a [b c] d" := by decide

example : parse_line "3 -4" = .ok [.word "3", .word "-4"] := by decide
example : parse_line "3-4" = .ok [.word "3", .word "-", .word "4"] := by decide
example : parse_line "print \"this [is a [deep] list]" =
    .ok [.word "print", .word "\"this",
      .sentence [.word "is", .word "a", .sentence [.word "deep"], .word "list"]] := by decide
example : parse_line "] x" = .error (.syntaxError ("Unexpected \"]\"")) := by decide
example : parse_line "[ x" = .error (.syntaxError ("Unmatched \"[\" at end of input")) := by decide

example : eval_line 32 [.word "sum", .word "1", .word "2"] (Environment []) =
    (.ok (some (.val (.word "3"))), Environment []) := by decide

example : eval_line 64
    [Value.word "1", .word "+", .word "2", .word "*", .word "3", .word "=", .word "7"]
    (Environment []) = (.ok (some (.val (.word "True"))), Environment []) := by decide

example : parse_line "3 + 12 / 8 - 0.25 * 2 = 2 * ( 1 + 0.5 ) * 4 / 3" =
    .ok [Value.word "3", .word "+", .word "12", .word "/", .word "8", .word "-", .word "0.25",
     .word "*", .word "2", .word "=", .word "2", .word "*", .word "(", .word "1", .word "+",
     .word "0.5", .word ")", .word "*", .word "4", .word "/", .word "3"] := by decide

example :
    (eval_line 64 [Value.word "to", .word "double", .word ":n"]
      (Environment [[Value.word "output", .word "sum", .word ":n", .word ":n"],
        [Value.word "end"]])).1 = .ok none := by decide

example :
    eval_line 64 [Value.word "double", .word "5"]
      ((eval_line 64 [Value.word "to", .word "double", .word ":n"]
        (Environment [[Value.word "output", .word "sum", .word ":n", .word ":n"],
          [Value.word "end"]])).2) =
    (.ok (some (.val (.word "10"))),
      (eval_line 64 [Value.word "to", .word "double", .word ":n"]
        (Environment [[Value.word "output", .word "sum", .word ":n", .word ":n"],
          [Value.word "end"]])).2) := by decide

/-! ## Claim C1: frame balance when every body line yields None -/

/-- C1: REFUTED ON THE CODE.  The claim states that when every body line
of a user-defined procedure evaluates to None, the frame pushed at entry
is popped before the call returns.  In the source the body loop of
logo_apply falls through with no pop_frame on that path: calling f (all
of whose lines yield None) on a one-frame environment returns None but
leaves TWO frames, so the frame-stack depth does not return to its
pre-line value. -/
theorem c1_frame_not_popped :
    (eval_line 32 [Value.word "f"] envF).1 = .ok none ∧
    envF.frames.length = 1 ∧
    (eval_line 32 [Value.word "f"] envF).2.frames =
      [[("x", some (.val (.word "1")))], []] ∧
    (eval_line 32 [Value.word "f"] envF).2.frames.length = 2 := by decide

/-! ## Claim C3: printing of sentences by the type primitive -/

/-- C3: REFUTED ON THE CODE.  The claim states every non-final element
of a sentence is followed by exactly one space regardless of repeated
elements; the source decides "is this the last element" by the value
comparison x[-1] == i, so in the sentence (a a) the first element
compares equal to the last one and gets no following space: the type
primitive prints aa, not a a. -/
theorem c3_type_repeated_elements :
    logo_type (.sentence [.word "a", .word "a"]) true = "aa" ∧
    logo_type (.sentence [.word "a", .word "a"]) true ≠ "a a" ∧
    logo_type (.sentence [.word "a", .word "b"]) true = "a b" ∧
    logo_type (.sentence [.word "x", .sentence [.word "a", .word "a"], .word "y"]) true
      = "x [aa] y" := by decide

/-! ## Claim C4: bare quote and bare colon tokens -/

/-- C4 counterexample: the claim states that interpreting the bare token
consisting of the quote character alone is rejected with an interpreter
error; instead the evaluator treats it as a quotation and returns the
empty word (text_of_quotation strips the quote and nothing remains). -/
theorem c4_bare_quote_not_rejected :
    eval_line 16 [Value.word "\""] (Environment []) =
      (.ok (some (.val (.word ""))), Environment []) := by decide

/-- C4 amended: interpreting the bare colon token is rejected, but with
the Python ValueError from variable_name (which the read-eval loop does
not catch), not with a LogoError; interpreting the bare quote token is
not rejected at all and yields the empty word. -/
theorem c4_bare_tokens_behaviour :
    eval_line 16 [Value.word ":"] (Environment []) =
      (.error (.valueError ("Illegal variable expression :")), Environment []) ∧
    eval_line 16 [Value.word "\""] (Environment []) =
      (.ok (some (.val (.word ""))), Environment []) ∧
    isprimitive (.word ":") = false ∧ isprimitive (.word "\"") = false := by decide

/-! ## Claim C10: a plain sentence starting with OUTPUT acts as the
output sentinel -/

/-- C10: a body line whose value is the sentence (OUTPUT v) passes the
result[0] == OUTPUT test of logo_apply, so the procedure pops its frame
and returns the second element v, with the same observable outcome as a
body line that calls the output primitive. -/
theorem c10_sentence_output_sentinel :
    logo_apply 32 procQuoted [] (Environment []) =
      (.ok (some (.val (.word "v"))), Environment []) ∧
    logo_apply 32 procQuoted [] (Environment []) =
      logo_apply 32 procOutput [] (Environment []) ∧
    getitem0 (.val (.sentence [.word "OUTPUT", .word "v"])) = .ok true ∧
    getitem1 (.val (.sentence [.word "OUTPUT", .word "v"])) = .ok (some (.val (.word "v"))) := by
  decide

/-! ## Claim C6: dispatch of the if primitive -/

/-- C6: logo_if evaluates its condition; on the word True it evaluates
the branch expression and returns that result, on the word False it
returns None, and on any other result it raises a LogoError whose
message is the exact prefix followed by the str of the offending result
(so the message begins with that prefix). -/
theorem c6_logo_if_dispatch (F : Nat) (val exp : Option RValue) (env env1 : Env)
    (rv : Option RValue) (hcond : if_cond_eval F val env = (.ok rv, env1)) :
    (rv = some (.val (.word "True")) → logo_if (F + 1) val exp env = run_exp F exp env1) ∧
    (rv = some (.val (.word "False")) → logo_if (F + 1) val exp env = (.ok none, env1)) ∧
    (rv ≠ some (.val (.word "True")) → rv ≠ some (.val (.word "False")) →
      logo_if (F + 1) val exp env =
        (.error (.logoError ("First argument to \x27if\x27 is not True or False: " ++ pyStr rv)),
          env1)) := by
  simp only [logo_if, hcond]
  refine ⟨?_, ?_, ?_⟩
  · intro h
    rw [if_pos h]
  · intro h
    subst h
    rw [if_neg (by decide), if_pos rfl]
  · intro h1 h2
    rw [if_neg h1, if_neg h2]

/-- Witness for C6: the three dispatch branches at concrete inputs (the
conditions evaluate to True, False, and the word 1 respectively). -/
theorem c6_logo_if_dispatch_witness :
    logo_if 11 (some (.val (.sentence [.word "True"]))) (some (.val (.sentence [])))
      (Environment []) = (.ok none, Environment []) ∧
    logo_if 11 (some (.val (.sentence [.word "False"]))) (some (.val (.sentence [])))
      (Environment []) = (.ok none, Environment []) ∧
    logo_if 11 (some (.val (.sentence [.word "1"]))) (some (.val (.sentence [])))
      (Environment []) =
      (.error (.logoError ("First argument to \x27if\x27 is not True or False: 1")),
        Environment []) := by
  refine ⟨?_, ?_, ?_⟩
  · have h := (c6_logo_if_dispatch 10 (some (.val (.sentence [.word "True"])))
      (some (.val (.sentence []))) (Environment []) (Environment [])
      (some (.val (.word "True"))) (by decide)).1 rfl
    rw [show (11 : Nat) = 10 + 1 from rfl, h]
    decide
  · have h := (c6_logo_if_dispatch 10 (some (.val (.sentence [.word "False"])))
      (some (.val (.sentence []))) (Environment []) (Environment [])
      (some (.val (.word "False"))) (by decide)).2.1 rfl
    rw [show (11 : Nat) = 10 + 1 from rfl, h]
  · have h := (c6_logo_if_dispatch 10 (some (.val (.sentence [.word "1"])))
      (some (.val (.sentence []))) (Environment []) (Environment [])
      (some (.val (.word "1"))) (by decide)).2.2 (by decide) (by decide)
    rw [show (11 : Nat) = 10 + 1 from rfl, h]
    decide

/-! ## Claim C5: variable binding and lookup -/

/-- Frames that do not bind a name are skipped by the innermost-first
search. -/
theorem lookupFrames_append_none (l1 l2 : List Frame) (k : String)
    (h : ∀ f ∈ l1, f.lookup k = none) :
    lookupFrames (l1 ++ l2) k = lookupFrames l2 k := by
  induction l1 with
  | nil => rfl
  | cons f fs ih =>
    have hf := h f (List.mem_cons_self f fs)
    rw [List.cons_append]
    simp only [lookupFrames, hf]
    exact ih (fun g hg => h g (List.mem_cons_of_mem f hg))

/-- C5: set_variable_value overwrites in the innermost frame when that
frame already binds the name (all other frames unchanged), otherwise
writes to the global frame (all other frames, intermediate ones
included, unchanged); lookup_variable returns the binding of the
innermost frame binding the name. -/
theorem c5_variable_binding :
    (∀ (env : Env) (k : String) (v : Option RValue) (last : Frame),
        env.frames.getLast? = some last → frameContains last k = true →
        (set_variable_value env k v).frames = env.frames.dropLast ++ [frameSet last k v]) ∧
    (∀ (env : Env) (k : String) (v : Option RValue) (g : Frame) (rest : List Frame) (last : Frame),
        env.frames = g :: rest → env.frames.getLast? = some last → frameContains last k = false →
        (set_variable_value env k v).frames = frameSet g k v :: rest) ∧
    (∀ (env : Env) (k : String) (pre post : List Frame) (f : Frame) (v : Option RValue),
        env.frames = pre ++ f :: post → f.lookup k = some v →
        (∀ f2 ∈ post, f2.lookup k = none) →
        lookup_variable env k = .ok v) := by
  refine ⟨?_, ?_, ?_⟩
  · intro env k v last h1 h2
    simp only [set_variable_value, h1, h2, if_true]
  · intro env k v g rest last h0 h1 h2
    rw [h0] at h1
    simp only [set_variable_value, h0, h1, h2, Bool.false_eq_true, if_false]
  · intro env k pre post f v h1 h2 h3
    simp only [lookup_variable, h1, List.reverse_append, List.reverse_cons]
    rw [List.append_assoc]
    rw [lookupFrames_append_none post.reverse ([f] ++ pre.reverse) k
      (fun g hg => h3 g (List.mem_reverse.mp hg))]
    simp only [List.singleton_append, lookupFrames, h2]

/-- Witness for C5 at envW: overwriting y lands in the innermost frame,
writing the unbound z lands in the global frame with the innermost frame
untouched, and x is found in the global frame through the innermost-first
search. -/
theorem c5_variable_binding_witness :
    (set_variable_value envW "y" (some (.val (.word "9")))).frames =
      [[("x", some (.val (.word "1")))], [("y", some (.val (.word "9")))]] ∧
    (set_variable_value envW "z" (some (.val (.word "9")))).frames =
      [[("x", some (.val (.word "1"))), ("z", some (.val (.word "9")))],
       [("y", some (.val (.word "2")))]] ∧
    lookup_variable envW "x" = .ok (some (.val (.word "1"))) := by
  refine ⟨?_, ?_, ?_⟩
  · have h := c5_variable_binding.1 envW "y" (some (.val (.word "9")))
      [("y", some (.val (.word "2")))] (by decide) (by decide)
    rw [h]; decide
  · have h := c5_variable_binding.2.1 envW "z" (some (.val (.word "9")))
      [("x", some (.val (.word "1")))] [[("y", some (.val (.word "2")))]]
      [("y", some (.val (.word "2")))] rfl (by decide) (by decide)
    rw [h]; decide
  · exact c5_variable_binding.2.2 envW "x" [] [[("y", some (.val (.word "2")))]]
      [("x", some (.val (.word "1")))] (some (.val (.word "1"))) rfl (by decide) (by decide)

/-! ## Claim C8: operator characters in the tokenizer -/

/-- C8: an operator character at the cursor becomes its own
one-character token, except that a minus whose previous character is a
space or does not exist starts an accumulated symbol; hence 3 -4 reads
as the words 3 and -4 while 3-4 reads as 3, -, 4. -/
theorem c8_operator_tokens :
    (∀ (c : Char) (rest : List Char) (prev : Option Char),
        c ∈ LOGO_OPERATORS → (c = '-' → prev ≠ some ' ' ∧ prev ≠ none) →
        parse_token c rest prev = (String.mk [c], rest, some c)) ∧
    (∀ (rest : List Char) (prev : Option Char), prev = some ' ' ∨ prev = none →
        parse_token '-' rest prev = parse_symbol '-' rest) ∧
    parse_line "3 -4" = .ok [.word "3", .word "-4"] ∧
    parse_line "3-4" = .ok [.word "3", .word "-", .word "4"] := by
  refine ⟨?_, ?_, by decide, by decide⟩
  · intro c rest prev hop hminus
    unfold parse_token
    rw [if_pos hop]
    by_cases hc : c = '-'
    · rw [if_pos (Or.inr (hminus hc))]
    · rw [if_pos (Or.inl hc)]
  · intro rest prev hprev
    unfold parse_token
    rw [if_pos (by decide)]
    rw [if_neg ?_]
    intro hcase
    rcases hcase with h | ⟨h1, h2⟩
    · exact h rfl
    · rcases hprev with h | h
      · exact h1 h
      · exact h2 h

/-- Witness for C8: a plus is its own token after a digit; a minus after
a space starts a symbol, giving the word -4. -/
theorem c8_operator_tokens_witness :
    parse_token '+' ['1'] (some '3') = (String.mk ['+'], ['1'], some '+') ∧
    parse_token '-' ['4'] (some ' ') = parse_symbol '-' ['4'] ∧
    parse_symbol '-' ['4'] = ("-4", [], some '4') := by
  refine ⟨?_, ?_, by decide⟩
  · exact c8_operator_tokens.1 '+' ['1'] (some '3') (by decide)
      (fun h => absurd h (by decide))
  · exact c8_operator_tokens.2.1 ['4'] (some ' ') (Or.inl rfl)

/-! ## Claim C9: every word token in a parsed tree is non-empty -/

/-- A token produced by parse_token holds at least the character that
started it. -/
theorem parse_token_word_nonempty (c : Char) (rest : List Char) (prev : Option Char) :
    nonemptyWords (.word (parse_token c rest prev).1) = true := by
  unfold nonemptyWords parse_token parse_symbol
  split
  · split
    · rfl
    · rfl
  · rfl

/-- Membership form of nonemptyWordsList. -/
theorem nonemptyWordsList_mem : ∀ (l : List Value), nonemptyWordsList l = true →
    ∀ v ∈ l, nonemptyWords v = true := by
  intro l
  induction l with
  | nil => intro _ v hv; cases hv
  | cons x xs ih =>
    intro h v hv
    rw [show nonemptyWordsList (x :: xs) = (nonemptyWords x && nonemptyWordsList xs) from rfl,
      Bool.and_eq_true] at h
    rcases List.mem_cons.mp hv with rfl | hv2
    · exact h.1
    · exact ih h.2 v hv2

/-- Every token list returned by the parser worker satisfies
nonemptyWordsList: operator tokens are one character, accumulated
symbols contain at least their first character, and nested sentences
satisfy the invariant recursively. -/
theorem parseLineAux_nonempty :
    ∀ (fuel : Nat) (chars : List Char) (prev : Option Char) (depth : Nat)
      (toks : List Value) (rest : List Char) (p1 : Option Char),
      parseLineAux fuel chars prev depth = .ok (toks, rest, p1) →
      nonemptyWordsList toks = true := by
  intro fuel
  induction fuel with
  | zero =>
    intro chars prev depth toks rest p1 h
    exact absurd h (by simp [parseLineAux])
  | succ fuel ih =>
    intro chars prev depth toks rest p1 h
    cases chars with
    | nil =>
      simp only [parseLineAux] at h
      by_cases hd : depth ≠ 0
      · rw [if_pos hd] at h; exact absurd h (by simp)
      · rw [if_neg hd] at h
        simp only [Except.ok.injEq, Prod.mk.injEq] at h
        obtain ⟨ht, _, _⟩ := h
        subst ht; rfl
    | cons c rest0 =>
      simp only [parseLineAux] at h
      by_cases hsp : c = ' '
      · rw [if_pos hsp] at h
        exact ih _ _ _ _ _ _ h
      · rw [if_neg hsp] at h
        by_cases hlb : c = '['
        · rw [if_pos hlb] at h
          rcases h1 : parseLineAux fuel rest0 (some '[') (depth + 1) with e | ⟨inner, rest1, prev1⟩
          · rw [h1] at h; exact absurd h (by simp)
          · rw [h1] at h
            dsimp only at h
            rcases h2 : parseLineAux fuel rest1 prev1 depth with e2 | ⟨toks2, rest2, prev2⟩
            · rw [h2] at h; exact absurd h (by simp)
            · rw [h2] at h
              simp only [Except.ok.injEq, Prod.mk.injEq] at h
              obtain ⟨ht, _, _⟩ := h
              subst ht
              have g1 := ih _ _ _ _ _ _ h1
              have g2 := ih _ _ _ _ _ _ h2
              show (nonemptyWords (Value.sentence inner) && nonemptyWordsList toks2) = true
              rw [show nonemptyWords (Value.sentence inner) = nonemptyWordsList inner from rfl,
                g1, g2]
              rfl
        · rw [if_neg hlb] at h
          by_cases hrb : c = ']'
          · rw [if_pos hrb] at h
            by_cases hd : depth = 0
            · rw [if_pos hd] at h; exact absurd h (by simp)
            · rw [if_neg hd] at h
              simp only [Except.ok.injEq, Prod.mk.injEq] at h
              obtain ⟨ht, _, _⟩ := h
              subst ht; rfl
          · rw [if_neg hrb] at h
            rcases h2 : parseLineAux fuel (parse_token c rest0 prev).2.1
                (parse_token c rest0 prev).2.2 depth with e2 | ⟨toks2, rest2, prev2⟩
            · rw [h2] at h; exact absurd h (by simp)
            · rw [h2] at h
              simp only [Except.ok.injEq, Prod.mk.injEq] at h
              obtain ⟨ht, _, _⟩ := h
              subst ht
              have g2 := ih _ _ _ _ _ _ h2
              show (nonemptyWords (Value.word (parse_token c rest0 prev).1) &&
                nonemptyWordsList toks2) = true
              rw [parse_token_word_nonempty, g2]
              rfl

/-- C9: every word token of a successfully parsed line, at any nesting
depth of the returned token tree, is a non-empty string. -/
theorem c9_word_tokens_nonempty (s : String) (toks : List Value)
    (h : parse_line s = .ok toks) : ∀ v ∈ toks, nonemptyWords v = true := by
  simp only [parse_line] at h
  rcases h1 : parseLineAux (2 * (pyStrip s.data).length + 1) (pyStrip s.data) none 0
    with e | ⟨toks2, rest2, p2⟩
  · rw [h1] at h; exact absurd h (by simp)
  · rw [h1] at h
    simp only [Except.ok.injEq] at h
    subst h
    exact nonemptyWordsList_mem toks2 (parseLineAux_nonempty _ _ _ _ _ _ _ h1)

/-- Witness for C9 on the doctest line print "this [is a [deep] list]:
the top-level word print and the nested sentence both satisfy the
non-empty-words invariant. -/
theorem c9_word_tokens_nonempty_witness :
    nonemptyWords (Value.word "print") = true ∧
    nonemptyWords (Value.sentence
      [.word "is", .word "a", .sentence [.word "deep"], .word "list"]) = true := by
  have h := c9_word_tokens_nonempty "print \"this [is a [deep] list]"
    [Value.word "print", Value.word "\"this",
      Value.sentence [.word "is", .word "a", .sentence [.word "deep"], .word "list"]]
    (by decide)
  exact ⟨h _ (by simp), h _ (by simp)⟩

/-! ## Claim C7: syntax errors exactly at unbalanced brackets -/

/-- Unfolding step of firstUnmatched at a left bracket. -/
theorem firstUnmatched_cons_lb (cs : List Char) (k : Nat) :
    firstUnmatched ('[' :: cs) k = firstUnmatched cs (k + 1) := by
  simp [firstUnmatched]

/-- Unfolding step of firstUnmatched at a closing bracket at level 0. -/
theorem firstUnmatched_cons_rb_zero (cs : List Char) :
    firstUnmatched (']' :: cs) 0 = some cs := by
  simp [firstUnmatched]

/-- Unfolding step of firstUnmatched at a closing bracket at a positive
level. -/
theorem firstUnmatched_cons_rb_succ (cs : List Char) (k : Nat) (h : k ≠ 0) :
    firstUnmatched (']' :: cs) k = firstUnmatched cs (k - 1) := by
  simp [firstUnmatched, h]

/-- A non-bracket character does not change the unmatched-bracket scan. -/
theorem firstUnmatched_cons_other (c : Char) (cs : List Char) (k : Nat)
    (h1 : c ≠ '[') (h2 : c ≠ ']') : firstUnmatched (c :: cs) k = firstUnmatched cs k := by
  simp [firstUnmatched, h1, h2]

/-- Unfolding step of balAux at a left bracket. -/
theorem balAux_cons_lb (cs : List Char) (d : Nat) :
    balAux ('[' :: cs) d = balAux cs (d + 1) := by
  simp [balAux]

/-- Unfolding step of balAux at a closing bracket at depth 0. -/
theorem balAux_cons_rb_zero (cs : List Char) : balAux (']' :: cs) 0 = false := by
  simp [balAux]

/-- Unfolding step of balAux at a closing bracket at positive depth. -/
theorem balAux_cons_rb_succ (cs : List Char) (d : Nat) (h : d ≠ 0) :
    balAux (']' :: cs) d = balAux cs (d - 1) := by
  simp [balAux, h]

/-- A non-bracket character does not change the balance scan. -/
theorem balAux_cons_other (c : Char) (cs : List Char) (k : Nat)
    (h1 : c ≠ '[') (h2 : c ≠ ']') : balAux (c :: cs) k = balAux cs k := by
  simp [balAux, h1, h2]

/-- The suffix after the first unmatched right bracket is strictly
shorter than the scanned characters. -/
theorem firstUnmatched_length :
    ∀ (cs : List Char) (k : Nat) (s : List Char),
      firstUnmatched cs k = some s → s.length < cs.length := by
  intro cs
  induction cs with
  | nil => intro k s h; exact absurd h (by simp [firstUnmatched])
  | cons c cs ih =>
    intro k s h
    by_cases h1 : c = '['
    · subst h1
      rw [firstUnmatched_cons_lb] at h
      have := ih (k + 1) s h
      simp only [List.length_cons]
      omega
    · by_cases h2 : c = ']'
      · subst h2
        by_cases h3 : k = 0
        · subst h3
          rw [firstUnmatched_cons_rb_zero] at h
          injection h with h4
          subst h4
          simp
        · rw [firstUnmatched_cons_rb_succ cs k h3] at h
          have := ih (k - 1) s h
          simp only [List.length_cons]
          omega
      · rw [firstUnmatched_cons_other c cs k h1 h2] at h
        have := ih k s h
        simp only [List.length_cons]
        omega

/-- Scanning at nesting k + 1 first finds the bracket closing level
k + 1 and then continues scanning the suffix at level 0. -/
theorem firstUnmatched_succ :
    ∀ (cs : List Char) (k : Nat),
      firstUnmatched cs (k + 1) = (firstUnmatched cs k).bind (fun t => firstUnmatched t 0) := by
  intro cs
  induction cs with
  | nil => intro k; rfl
  | cons c cs ih =>
    intro k
    by_cases h1 : c = '['
    · subst h1
      rw [firstUnmatched_cons_lb, firstUnmatched_cons_lb, ih (k + 1)]
    · by_cases h2 : c = ']'
      · subst h2
        by_cases h3 : k = 0
        · subst h3
          rw [show (0 : Nat) + 1 = 1 from rfl, firstUnmatched_cons_rb_succ cs 1 (by omega),
            firstUnmatched_cons_rb_zero]
          rfl
        · rw [firstUnmatched_cons_rb_succ cs (k + 1) (by omega),
            firstUnmatched_cons_rb_succ cs k h3]
          have hk : k + 1 - 1 = k - 1 + 1 := by omega
          rw [hk, ih (k - 1)]
      · rw [firstUnmatched_cons_other c cs _ h1 h2, firstUnmatched_cons_other c cs _ h1 h2,
          ih k]

/-- Balance at nesting k + 1 decomposes through the bracket closing
level k + 1: the remainder must itself be balanced. -/
theorem balAux_succ :
    ∀ (cs : List Char) (k : Nat),
      balAux cs (k + 1) = (firstUnmatched cs k).elim false (fun t => balAux t 0) := by
  intro cs
  induction cs with
  | nil => intro k; rfl
  | cons c cs ih =>
    intro k
    by_cases h1 : c = '['
    · subst h1
      rw [balAux_cons_lb, firstUnmatched_cons_lb, ih (k + 1)]
    · by_cases h2 : c = ']'
      · subst h2
        by_cases h3 : k = 0
        · subst h3
          rw [show (0 : Nat) + 1 = 1 from rfl, balAux_cons_rb_succ cs 1 (by omega),
            firstUnmatched_cons_rb_zero]
          rfl
        · rw [balAux_cons_rb_succ cs (k + 1) (by omega), firstUnmatched_cons_rb_succ cs k h3]
          have hk : k + 1 - 1 = k - 1 + 1 := by omega
          rw [hk, ih (k - 1)]
      · rw [balAux_cons_other c cs _ h1 h2, firstUnmatched_cons_other c cs _ h1 h2, ih k]

/-- A bracket-free prefix does not change the balance scan. -/
theorem balAux_append_free (l cs : List Char) (k : Nat)
    (h : ∀ a ∈ l, a ≠ '[' ∧ a ≠ ']') : balAux (l ++ cs) k = balAux cs k := by
  induction l with
  | nil => rfl
  | cons a l ih =>
    have ha := h a (List.mem_cons_self a l)
    rw [List.cons_append, balAux_cons_other a (l ++ cs) k ha.1 ha.2]
    exact ih (fun b hb => h b (List.mem_cons_of_mem a hb))

/-- A bracket-free prefix does not change the unmatched-bracket scan. -/
theorem firstUnmatched_append_free (l cs : List Char) (k : Nat)
    (h : ∀ a ∈ l, a ≠ '[' ∧ a ≠ ']') : firstUnmatched (l ++ cs) k = firstUnmatched cs k := by
  induction l with
  | nil => rfl
  | cons a l ih =>
    have ha := h a (List.mem_cons_self a l)
    rw [List.cons_append, firstUnmatched_cons_other a (l ++ cs) k ha.1 ha.2]
    exact ih (fun b hb => h b (List.mem_cons_of_mem a hb))

/-- The symbol accumulator consumes a delimiter-free prefix. -/
theorem takeSymbolChars_spec :
    ∀ (l : List Char),
      l = (takeSymbolChars l).1 ++ (takeSymbolChars l).2 ∧
      ∀ a ∈ (takeSymbolChars l).1, a ∉ LOGO_DELIMITERS := by
  intro l
  induction l with
  | nil => exact ⟨rfl, by intro a ha; cases ha⟩
  | cons c rest ih =>
    by_cases h : c ∈ LOGO_DELIMITERS
    · rw [show takeSymbolChars (c :: rest) = ([], c :: rest) from by
        simp [takeSymbolChars, h]]
      exact ⟨rfl, by intro a ha; cases ha⟩
    · rw [show takeSymbolChars (c :: rest) =
          (c :: (takeSymbolChars rest).1, (takeSymbolChars rest).2) from by
        simp [takeSymbolChars, h]]
      constructor
      · show c :: rest = c :: (takeSymbolChars rest).1 ++ (takeSymbolChars rest).2
        rw [List.cons_append, ← ih.1]
      · intro a ha
        rcases List.mem_cons.mp ha with rfl | ha2
        · exact h
        · exact ih.2 a ha2

/-- parse_token consumes, beyond the cursor character, only a
delimiter-free prefix of the remaining characters. -/
theorem parse_token_decomp (c : Char) (rest : List Char) (prev : Option Char) :
    ∃ consumed, rest = consumed ++ (parse_token c rest prev).2.1 ∧
      ∀ a ∈ consumed, a ∉ LOGO_DELIMITERS := by
  unfold parse_token parse_symbol
  split
  · split
    · exact ⟨[], rfl, by intro a ha; cases ha⟩
    · exact ⟨(takeSymbolChars rest).1, (takeSymbolChars_spec rest).1,
        (takeSymbolChars_spec rest).2⟩
  · exact ⟨(takeSymbolChars rest).1, (takeSymbolChars_spec rest).1,
      (takeSymbolChars_spec rest).2⟩

/-- Reduction of Option.elim at some. -/
theorem balElimSome {α β : Type} (a : α) (b : β) (f : α → β) : (some a).elim b f = f a := rfl

/-- Reduction of Option.elim at none. -/
theorem balElimNone {α β : Type} (b : β) (f : α → β) : (none : Option α).elim b f = b := rfl

/-- Reduction of Option.bind at some. -/
theorem balBindSome {α β : Type} (a : α) (f : α → Option β) : (some a).bind f = f a := rfl

/-- Characterisation of the parser worker by the bracket scanners: at
depth 0 it succeeds (consuming everything) exactly on balanced input and
otherwise raises a syntax error; at positive depth it succeeds exactly
when a closing bracket for its level exists, returning the suffix after
it, and otherwise raises a syntax error. -/
theorem parseLineAux_balance :
    ∀ (fuel : Nat) (chars : List Char) (prev : Option Char) (depth : Nat),
      2 * chars.length + 1 ≤ fuel →
      ((depth = 0 →
          (balAux chars 0 = true →
            ∃ toks p1, parseLineAux fuel chars prev depth = .ok (toks, [], p1)) ∧
          (balAux chars 0 = false →
            ∃ msg, parseLineAux fuel chars prev depth = .error (.syntaxError msg))) ∧
       (depth ≠ 0 →
          (∀ s, firstUnmatched chars 0 = some s →
            ∃ toks, parseLineAux fuel chars prev depth = .ok (toks, s, some ']')) ∧
          (firstUnmatched chars 0 = none →
            ∃ msg, parseLineAux fuel chars prev depth = .error (.syntaxError msg)))) := by
  intro fuel
  induction fuel with
  | zero => intro chars prev depth hf; exact absurd hf (by omega)
  | succ fuel ih =>
    intro chars prev depth hf
    cases chars with
    | nil =>
      refine ⟨?_, ?_⟩
      · intro hd; subst hd
        exact ⟨fun _ => ⟨[], prev, by simp [parseLineAux]⟩,
          fun hb => absurd hb (by simp [balAux])⟩
      · intro hd
        exact ⟨fun s hs => absurd hs (by simp [firstUnmatched]),
          fun _ => ⟨"Unmatched \"[\" at end of input", by simp [parseLineAux, hd]⟩⟩
    | cons c rest0 =>
      by_cases hsp : c = ' '
      · subst hsp
        have hstep : parseLineAux (fuel + 1) (' ' :: rest0) prev depth =
            parseLineAux fuel rest0 (some ' ') depth := by
          simp [parseLineAux]
        have hbal : balAux (' ' :: rest0) 0 = balAux rest0 0 :=
          balAux_cons_other ' ' rest0 0 (by decide) (by decide)
        have hfu : firstUnmatched (' ' :: rest0) 0 = firstUnmatched rest0 0 :=
          firstUnmatched_cons_other ' ' rest0 0 (by decide) (by decide)
        have hf2 : 2 * rest0.length + 1 ≤ fuel := by
          simp only [List.length_cons] at hf; omega
        rw [hstep, hbal, hfu]
        exact ih rest0 (some ' ') depth hf2
      · by_cases hlb : c = '['
        · subst hlb
          have hf2 : 2 * rest0.length + 1 ≤ fuel := by
            simp only [List.length_cons] at hf; omega
          have hbal : balAux ('[' :: rest0) 0 =
              (firstUnmatched rest0 0).elim false (fun t => balAux t 0) := by
            rw [balAux_cons_lb, balAux_succ rest0 0]
          have hfu : firstUnmatched ('[' :: rest0) 0 =
              (firstUnmatched rest0 0).bind (fun t => firstUnmatched t 0) := by
            rw [firstUnmatched_cons_lb, firstUnmatched_succ rest0 0]
          have IHinner := (ih rest0 (some '[') (depth + 1) hf2).2 (by omega)
          rcases hFU : firstUnmatched rest0 0 with _ | s1
          · obtain ⟨msg, hres⟩ := IHinner.2 hFU
            refine ⟨?_, ?_⟩
            · intro hd; subst hd
              refine ⟨fun hb => ?_, fun _ => ⟨msg, by simp [parseLineAux, hres]⟩⟩
              rw [hbal, hFU, balElimNone] at hb
              exact absurd hb (by simp)
            · intro hd
              refine ⟨fun s hs => ?_, fun _ => ⟨msg, by simp [parseLineAux, hres]⟩⟩
              rw [hfu, hFU] at hs
              exact absurd hs (by simp)
          · have hs1len := firstUnmatched_length rest0 0 s1 hFU
            obtain ⟨toks1, hres1⟩ := IHinner.1 s1 hFU
            have hf3 : 2 * s1.length + 1 ≤ fuel := by
              simp only [List.length_cons] at hf; omega
            have IHcont := ih s1 (some ']') depth hf3
            refine ⟨?_, ?_⟩
            · intro hd; subst hd
              have IHc := IHcont.1 rfl
              refine ⟨fun hb => ?_, fun hb => ?_⟩
              · rw [hbal, hFU, balElimSome] at hb
                obtain ⟨toks2, p2, hres2⟩ := IHc.1 hb
                exact ⟨Value.sentence toks1 :: toks2, p2,
                  by simp [parseLineAux, hres1, hres2]⟩
              · rw [hbal, hFU, balElimSome] at hb
                obtain ⟨msg, hres2⟩ := IHc.2 hb
                exact ⟨msg, by simp [parseLineAux, hres1, hres2]⟩
            · intro hd
              have IHc := IHcont.2 hd
              refine ⟨fun s hs => ?_, fun hs => ?_⟩
              · rw [hfu, hFU, balBindSome] at hs
                obtain ⟨toks2, hres2⟩ := IHc.1 s hs
                exact ⟨Value.sentence toks1 :: toks2,
                  by simp [parseLineAux, hres1, hres2]⟩
              · rw [hfu, hFU, balBindSome] at hs
                obtain ⟨msg, hres2⟩ := IHc.2 hs
                exact ⟨msg, by simp [parseLineAux, hres1, hres2]⟩
        · by_cases hrb : c = ']'
          · subst hrb
            refine ⟨?_, ?_⟩
            · intro hd; subst hd
              refine ⟨fun hb => ?_, fun _ => ⟨"Unexpected \"]\"", by simp [parseLineAux]⟩⟩
              rw [balAux_cons_rb_zero] at hb
              exact absurd hb (by simp)
            · intro hd
              refine ⟨fun s hs => ?_, fun hs => ?_⟩
              · rw [firstUnmatched_cons_rb_zero] at hs
                injection hs with hs2
                subst hs2
                exact ⟨[], by simp [parseLineAux, hd]⟩
              · rw [firstUnmatched_cons_rb_zero] at hs
                exact absurd hs (by simp)
          · obtain ⟨consumed, hdec, hfree⟩ := parse_token_decomp c rest0 prev
            have hconsfree : ∀ a ∈ consumed, a ≠ '[' ∧ a ≠ ']' := by
              intro a ha
              have hnd := hfree a ha
              constructor
              · intro hEq; subst hEq; exact hnd (by decide)
              · intro hEq; subst hEq; exact hnd (by decide)
            set r1 := (parse_token c rest0 prev).2.1 with hr1
            set pv2 := (parse_token c rest0 prev).2.2 with hpv2
            have hlen1 : r1.length ≤ rest0.length := by
              rw [hdec, List.length_append]; omega
            have hbal : balAux (c :: rest0) 0 = balAux r1 0 := by
              rw [balAux_cons_other c rest0 0 hlb hrb, hdec]
              exact balAux_append_free consumed r1 0 hconsfree
            have hfu : firstUnmatched (c :: rest0) 0 = firstUnmatched r1 0 := by
              rw [firstUnmatched_cons_other c rest0 0 hlb hrb, hdec]
              exact firstUnmatched_append_free consumed r1 0 hconsfree
            have hf2 : 2 * r1.length + 1 ≤ fuel := by
              simp only [List.length_cons] at hf; omega
            have IH := ih r1 pv2 depth hf2
            refine ⟨?_, ?_⟩
            · intro hd; subst hd
              have IHc := IH.1 rfl
              refine ⟨fun hb => ?_, fun hb => ?_⟩
              · rw [hbal] at hb
                obtain ⟨toks2, p2, hres⟩ := IHc.1 hb
                exact ⟨Value.word (parse_token c rest0 prev).1 :: toks2, p2,
                  by simp [parseLineAux, hsp, hlb, hrb, ← hr1, ← hpv2, hres]⟩
              · rw [hbal] at hb
                obtain ⟨msg, hres⟩ := IHc.2 hb
                exact ⟨msg, by simp [parseLineAux, hsp, hlb, hrb, ← hr1, ← hpv2, hres]⟩
            · intro hd
              have IHc := IH.2 hd
              refine ⟨fun s hs => ?_, fun hs => ?_⟩
              · rw [hfu] at hs
                obtain ⟨toks2, hres⟩ := IHc.1 s hs
                exact ⟨Value.word (parse_token c rest0 prev).1 :: toks2,
                  by simp [parseLineAux, hsp, hlb, hrb, ← hr1, ← hpv2, hres]⟩
              · rw [hfu] at hs
                obtain ⟨msg, hres⟩ := IHc.2 hs
                exact ⟨msg, by simp [parseLineAux, hsp, hlb, hrb, ← hr1, ← hpv2, hres]⟩

/-- C7: parse_line raises a syntax error exactly when the brackets of
the (stripped) input are unbalanced in the counter-scan sense: a closing
bracket at depth 0 or an unclosed opening bracket at end of input; on
bracket-balanced input it returns a token tree without raising. -/
theorem c7_bracket_balance (s : String) :
    (balAux (pyStrip s.data) 0 = true → ∃ toks, parse_line s = .ok toks) ∧
    (balAux (pyStrip s.data) 0 = false →
      ∃ msg, parse_line s = .error (.syntaxError msg)) := by
  have H := (parseLineAux_balance (2 * (pyStrip s.data).length + 1) (pyStrip s.data) none 0
    (by omega)).1 rfl
  constructor
  · intro hb
    obtain ⟨toks, p1, hres⟩ := H.1 hb
    exact ⟨toks, by simp [parse_line, hres]⟩
  · intro hb
    obtain ⟨msg, hres⟩ := H.2 hb
    exact ⟨msg, by simp [parse_line, hres]⟩

/-- Witness for C7: a balanced line parses, a stray closing bracket and
an unclosed opening bracket raise syntax errors. -/
theorem c7_bracket_balance_witness :
    (∃ toks, parse_line "print [a [b] c]" = .ok toks) ∧
    (∃ msg, parse_line "]" = .error (.syntaxError msg)) ∧
    (∃ msg, parse_line "[ x" = .error (.syntaxError msg)) :=
  ⟨(c7_bracket_balance "print [a [b] c]").1 (by decide),
   (c7_bracket_balance "]").2 (by decide),
   (c7_bracket_balance "[ x").2 (by decide)⟩

/-! ## Claim C2: infix arithmetic precedence -/

/-- One evaluation step of eval_line on a non-empty buffer. -/
theorem eval_line_cons (F : Nat) (t : Value) (rest : List Value) (env : Env) :
    eval_line (F + 1) (t :: rest) env =
      match logo_eval F false (t :: rest) env with
      | (.error e, env1) => (.error e, env1)
      | (.ok (r, rest2), env1) =>
        match r with
        | none => eval_line F rest2 env1
        | some v => (.ok (some v), env1) := rfl

/-- eval_noninfix_exp on a self-evaluating word. -/
theorem eval_noninfix_word_prim (F : Nat) (w : String) (rest : List Value) (env : Env)
    (h : isprimitive (.word w) = true) :
    eval_noninfix_exp (F + 1) (Value.word w :: rest) env =
      (.ok (some (.val (.word w)), rest), env) := by
  simp only [eval_noninfix_exp, h, if_true]

/-- logo_eval on a self-evaluating word: the token itself feeds the
infix-operator loop. -/
theorem logo_eval_word_prim (F : Nat) (pre : Bool) (w : String) (rest : List Value) (env : Env)
    (h : isprimitive (.word w) = true) (hne : ¬(Value.word w = Value.word ")")) :
    logo_eval (F + 2) pre (Value.word w :: rest) env =
      infix_ops (F + 1) pre (some (.val (.word w))) rest env := by
  have h1 : logo_eval (F + 2) pre (Value.word w :: rest) env =
      (if Value.word w = Value.word ")" then (.error (.logoError ("Unexpected \")\"")), env)
       else
         match eval_noninfix_exp (F + 1) (Value.word w :: rest) env with
         | (.error e, env1) => (.error e, env1)
         | (.ok (r, rest1), env1) => infix_ops (F + 1) pre r rest1 env1) := rfl
  rw [h1, if_neg hne, eval_noninfix_word_prim F w rest env h]

/-- logo_eval on an opening parenthesis: evaluate one sub-expression,
require the closing parenthesis, feed the result to the infix loop. -/
theorem logo_eval_lparen (F : Nat) (pre : Bool) (rest : List Value) (env : Env) :
    logo_eval (F + 2) pre (Value.word "(" :: rest) env =
      (match ((match logo_eval F false rest env with
        | (.error e, env1) => (.error e, env1)
        | (.ok (r, rest1), env1) =>
          match rest1 with
          | Value.word ")" :: rest2 => (.ok (r, rest2), env1)
          | _ => (.error (.logoError ("Expected \")\"")), env1))
          : Except Err ((Option RValue) × List Value) × Env) with
      | (.error e, env1) => (.error e, env1)
      | (.ok (r, rest1), env1) => infix_ops (F + 1) pre r rest1 env1) := rfl

/-- The infix loop on a plus with the initial procedure table: group 1,
so pre_operator returns early, and otherwise the right operand is a full
expression evaluated with pre_operator set. -/
theorem infix_ops_plus (F : Nat) (pre : Bool) (r : Option RValue) (rest : List Value) :
    infix_ops (F + 1) pre r (Value.word "+" :: rest) (Environment []) =
      ((if pre then (.ok (r, Value.word "+" :: rest), Environment [])
       else
         match logo_eval F true rest (Environment []) with
         | (.error e, env1) => (.error e, env1)
         | (.ok (rhs, rest1), env1) =>
           match logo_apply F (primProc "sum" 2 .psum false) [r, rhs] env1 with
           | (.error e, env2) => (.error e, env2)
           | (.ok r2, env2) => infix_ops F pre r2 rest1 env2)
        : Except Err ((Option RValue) × List Value) × Env) := rfl

/-- The infix loop on a times with the initial procedure table: group 2,
so the right operand is a non-infix sub-expression. -/
theorem infix_ops_times (F : Nat) (pre : Bool) (r : Option RValue) (rest : List Value) :
    infix_ops (F + 1) pre r (Value.word "*" :: rest) (Environment []) =
      ((match eval_noninfix_exp F rest (Environment []) with
      | (.error e, env1) => (.error e, env1)
      | (.ok (rhs, rest1), env1) =>
        match logo_apply F (primProc "product" 2 .pproduct false) [r, rhs] env1 with
        | (.error e, env2) => (.error e, env2)
        | (.ok r2, env2) => infix_ops F pre r2 rest1 env2)
        : Except Err ((Option RValue) × List Value) × Env) := rfl

/-- The infix loop stops at a closing parenthesis (not an infix
symbol). -/
theorem infix_ops_rparen (F : Nat) (pre : Bool) (r : Option RValue) (rest : List Value)
    (env : Env) :
    infix_ops (F + 1) pre r (Value.word ")" :: rest) env =
      (.ok (r, Value.word ")" :: rest), env) := rfl

/-- The infix loop stops at end of buffer. -/
theorem infix_ops_nil (F : Nat) (pre : Bool) (r : Option RValue) (env : Env) :
    infix_ops (F + 1) pre r [] env = (.ok (r, []), env) := rfl

/-- logo_apply on a primitive procedure record: dispatch and wrap
errors. -/
theorem logo_apply_primProc (F : Nat) (nm : String) (n : Nat) (p : Prim) (ne : Bool)
    (args : List (Option RValue)) (env : Env) :
    logo_apply (F + 1) (primProc nm n p ne) args env =
      ((match apply_primitive F p args env with
      | (.error e, env1) =>
        (.error (if e = .outOfFuel then e else .logoError (errStr e)), env1)
      | (.ok r, env1) => (.ok r, env1)) : Except Err (Option RValue) × Env) := rfl

/-- apply_primitive on sum. -/
theorem apply_primitive_sum (F : Nat) (x y : Option RValue) (env : Env) :
    apply_primitive (F + 1) .psum [x, y] env = (numeric2 pyAdd x y, env) := rfl

/-- apply_primitive on product. -/
theorem apply_primitive_product (F : Nat) (x y : Option RValue) (env : Env) :
    apply_primitive (F + 1) .pproduct [x, y] env = (numeric2 pyMul x y, env) := rfl

set_option maxRecDepth 8000 in
set_option maxHeartbeats 1600000 in
/-- C2: with well-formed numeric operand words (self-evaluating tokens),
evaluating a + b * c equals evaluating a + ( b * c ), and evaluating
a * b + c equals evaluating ( a * b ) + c: multiplication binds tighter
than addition on both sides. -/
theorem c2_precedence (wa wb wc : String)
    (ha : isprimitive (.word wa) = true)
    (hb : isprimitive (.word wb) = true)
    (hc : isprimitive (.word wc) = true) :
    eval_line 16 [Value.word wa, .word "+", .word wb, .word "*", .word wc] (Environment []) =
      eval_line 16 [Value.word wa, .word "+", .word "(", .word wb, .word "*", .word wc,
        .word ")"] (Environment []) ∧
    eval_line 16 [Value.word wa, .word "*", .word wb, .word "+", .word wc] (Environment []) =
      eval_line 16 [Value.word "(", .word wa, .word "*", .word wb, .word ")", .word "+",
        .word wc] (Environment []) := by
  have hwa : ¬(Value.word wa = Value.word ")") := by
    intro h; rw [h] at ha; exact absurd ha (by decide)
  have hwb : ¬(Value.word wb = Value.word ")") := by
    intro h; rw [h] at hb; exact absurd hb (by decide)
  have hwc : ¬(Value.word wc = Value.word ")") := by
    intro h; rw [h] at hc; exact absurd hc (by decide)
  constructor
  · simp only [eval_line_cons, logo_eval_word_prim, eval_noninfix_word_prim, logo_eval_lparen,
      infix_ops_plus, infix_ops_times, infix_ops_rparen, infix_ops_nil, logo_apply_primProc,
      apply_primitive_sum, apply_primitive_product, numeric2, ha, hb, hc, hwa, hwb, hwc,
      Bool.false_eq_true, if_false, if_true, not_false_eq_true, eq_self_iff_true]
    rcases hb1 : to_num (some (.val (.word wb))) with e1 | b1 <;>
      simp only [eval_line_cons, logo_eval_word_prim, eval_noninfix_word_prim, logo_eval_lparen,
        infix_ops_plus, infix_ops_times, infix_ops_rparen, infix_ops_nil, logo_apply_primProc,
        apply_primitive_sum, apply_primitive_product, numeric2, ha, hb, hc, hwa, hwb, hwc,
        Bool.false_eq_true, if_false, if_true, not_false_eq_true, eq_self_iff_true, hb1]
    all_goals try (
      rcases hc1 : to_num (some (.val (.word wc))) with e2 | c1 <;>
        simp only [eval_line_cons, logo_eval_word_prim, eval_noninfix_word_prim, logo_eval_lparen,
          infix_ops_plus, infix_ops_times, infix_ops_rparen, infix_ops_nil, logo_apply_primProc,
          apply_primitive_sum, apply_primitive_product, numeric2, ha, hb, hc, hwa, hwb, hwc,
          Bool.false_eq_true, if_false, if_true, not_false_eq_true, eq_self_iff_true, hc1])
  · simp only [eval_line_cons, logo_eval_word_prim, eval_noninfix_word_prim, logo_eval_lparen,
      infix_ops_plus, infix_ops_times, infix_ops_rparen, infix_ops_nil, logo_apply_primProc,
      apply_primitive_sum, apply_primitive_product, numeric2, ha, hb, hc, hwa, hwb, hwc,
      Bool.false_eq_true, if_false, if_true, not_false_eq_true, eq_self_iff_true]
    rcases ha1 : to_num (some (.val (.word wa))) with e1 | a1 <;>
      simp only [eval_line_cons, logo_eval_word_prim, eval_noninfix_word_prim, logo_eval_lparen,
        infix_ops_plus, infix_ops_times, infix_ops_rparen, infix_ops_nil, logo_apply_primProc,
        apply_primitive_sum, apply_primitive_product, numeric2, ha, hb, hc, hwa, hwb, hwc,
        Bool.false_eq_true, if_false, if_true, not_false_eq_true, eq_self_iff_true, ha1]
    all_goals try (
      rcases hb1 : to_num (some (.val (.word wb))) with e2 | b1 <;>
        simp only [eval_line_cons, logo_eval_word_prim, eval_noninfix_word_prim, logo_eval_lparen,
          infix_ops_plus, infix_ops_times, infix_ops_rparen, infix_ops_nil, logo_apply_primProc,
          apply_primitive_sum, apply_primitive_product, numeric2, ha, hb, hc, hwa, hwb, hwc,
          Bool.false_eq_true, if_false, if_true, not_false_eq_true, eq_self_iff_true, hb1])

/-- Witness for C2 at the words 1, 2 and 3: both equalities hold and the
common value of 1 + 2 * 3 is the word 7, i.e. 1 + (2 * 3). -/
theorem c2_precedence_witness :
    isprimitive (Value.word "1") = true ∧
    eval_line 16 [Value.word "1", .word "+", .word "2", .word "*", .word "3"]
      (Environment []) =
      eval_line 16 [Value.word "1", .word "+", .word "(", .word "2", .word "*", .word "3",
        .word ")"] (Environment []) ∧
    eval_line 16 [Value.word "1", .word "*", .word "2", .word "+", .word "3"]
      (Environment []) =
      eval_line 16 [Value.word "(", .word "1", .word "*", .word "2", .word ")", .word "+",
        .word "3"] (Environment []) ∧
    eval_line 16 [Value.word "1", .word "+", .word "2", .word "*", .word "3"]
      (Environment []) = (.ok (some (.val (.word "7"))), Environment []) :=
  ⟨by decide,
   (c2_precedence "1" "2" "3" (by decide) (by decide) (by decide)).1,
   (c2_precedence "1" "2" "3" (by decide) (by decide) (by decide)).2,
   by decide⟩
